import Mathlib

/-!
Verification development for the persistence and retrieval layer of the
live-streaming-assistants repository: the multi-user SQLite adapter
(`src/packages/adapter-sqlite/src/multiUserAdapter.ts`, which also contains the
`BaseSqliteAdapter`) and the RAG knowledge manager (`src/unnamed/part_003`,
class `RAGKnowledgeManager`).

The embedding is shallow: one SQLite partition is modelled as Lean lists of
rows (one list per table), SQL statements become list filters / sorts / takes
that mirror the statement text (including SQLite operator precedence and NULL
comparison semantics where they matter), JavaScript truthiness is made
explicit where the source relies on it, and thrown exceptions become
`Except` values.

External collaborators that are imported by the sources but whose code is not
part of the repository snapshot (`embed` from `embedding.ts`, `splitChunks`
from `generation.ts`, `stringToUuid` from `uuid.ts`) are passed in as opaque
pure function parameters: every theorem below holds for an arbitrary choice of
these functions, which is exactly the determinism the source relies on.
-/

namespace LSA

/-! ### String helpers

SQLite `lower()` and `LIKE` fold only ASCII letters, and JavaScript string
operations in the sources are applied to ASCII identifiers and text, so case
folding is modelled on ASCII. -/

/-- ASCII lower-casing of a single character (SQLite `lower()` / `LIKE` folding). -/
def charFold (c : Char) : Char :=
  if 'A' ≤ c ∧ c ≤ 'Z' then Char.ofNat (c.toNat + 32) else c

/-- ASCII lower-casing of a string (models `lower(...)` in SQL and
`.toLowerCase()` on the ASCII text the sources handle). -/
def asciiLower (s : String) : String := String.mk (s.data.map charFold)

/-- Recursive core of SQL `LIKE`: `%` matches any sequence, `_` any single
character, other characters match case-insensitively (SQLite default ASCII
case folding). Structural recursion on a fuel counter (every recursive call
shortens the pattern or the text, so fuel `|pattern| + |text| + 1` never runs
out); the `0`-fuel arm is unreachable from `likeMatch`. -/
def likeMatchAux : Nat → List Char → List Char → Bool
  | 0, _, _ => false
  | _ + 1, [], [] => true
  | _ + 1, [], _ :: _ => false
  | fuel + 1, '%' :: ps, [] => likeMatchAux fuel ps []
  | fuel + 1, '%' :: ps, c :: cs =>
    likeMatchAux fuel ps (c :: cs) || likeMatchAux fuel ('%' :: ps) cs
  | _ + 1, '_' :: _, [] => false
  | fuel + 1, '_' :: ps, _ :: cs => likeMatchAux fuel ps cs
  | _ + 1, _ :: _, [] => false
  | fuel + 1, p :: ps, c :: cs => (charFold p == charFold c) && likeMatchAux fuel ps cs

/-- `List` core of SQL `LIKE` with sufficient fuel. -/
def likeMatch (p s : List Char) : Bool := likeMatchAux (p.length + s.length + 1) p s

/-- SQL `value LIKE pattern`. -/
def sqlLike (pattern s : String) : Bool := likeMatch pattern.data s.data

/-- JavaScript `id.replace("*", "%")`: a plain-string `replace` substitutes only
the first occurrence. -/
def replaceFirstStar : List Char → List Char
  | [] => []
  | c :: cs => if c = '*' then '%' :: cs else c :: replaceFirstStar cs

/-- JavaScript `path.replace(/\\/g, "/")` style global single-character
replacement. -/
def replaceChar (a b : Char) (s : String) : String :=
  String.mk (s.data.map (fun c => if c = a then b else c))

/-- JavaScript `s.slice(0, n)`. -/
def sliceTo (s : String) (n : Nat) : String := String.mk (s.data.take n)

/-- Bool test for `needle` being a prefix of `haystack` (char lists). -/
def isPrefOf : List Char → List Char → Bool
  | [], _ => true
  | _ :: _, [] => false
  | a :: as, b :: bs => (a == b) && isPrefOf as bs

/-- Bool test for `needle` occurring inside `haystack` (JavaScript
`haystack.includes(needle)`). -/
def isInfOf : List Char → List Char → Bool
  | n, [] => n.isEmpty
  | n, h :: hs => isPrefOf n (h :: hs) || isInfOf n hs

/-! ### Sort relations -/

/-- `ORDER BY score DESC` comparison on nullable scores: SQLite treats `NULL`
as smaller than every value, so in descending order `NULL` sorts last. -/
def optScoreGeB (x y : Option ℚ) : Bool :=
  match x, y with
  | _, none => true
  | none, some _ => false
  | some p, some q => decide (q ≤ p)

/-- Descending order by a nullable rational sort key. -/
def keyGe {α : Type} (k : α → Option ℚ) (x y : α) : Prop := optScoreGeB (k x) (k y) = true

instance {α : Type} (k : α → Option ℚ) : DecidableRel (keyGe k) :=
  fun _ _ => instDecidableEqBool _ _

instance {α : Type} (k : α → Option ℚ) : IsTotal α (keyGe k) := by
  constructor
  intro a b
  unfold keyGe
  rcases ha : k a with _ | p <;> rcases hb : k b with _ | q <;> simp [optScoreGeB]
  exact le_total q p

instance {α : Type} (k : α → Option ℚ) : IsTrans α (keyGe k) := by
  constructor
  intro a b c
  unfold keyGe
  rcases ha : k a with _ | p <;> rcases hb : k b with _ | q <;> rcases hc : k c with _ | s <;>
    simp [optScoreGeB] <;> intro h1 h2 <;> linarith

/-- `ORDER BY prio DESC, createdAt DESC` comparison on `(prio, createdAt)`. -/
def natPairGeB (p q : Nat × Nat) : Bool :=
  (decide (q.1 < p.1)) || ((p.1 == q.1) && decide (q.2 ≤ p.2))

/-- Descending lexicographic order by a `(priority, recency)` sort key. -/
def pairGe {α : Type} (k : α → Nat × Nat) (x y : α) : Prop := natPairGeB (k x) (k y) = true

instance {α : Type} (k : α → Nat × Nat) : DecidableRel (pairGe k) :=
  fun _ _ => instDecidableEqBool _ _

instance {α : Type} (k : α → Nat × Nat) : IsTotal α (pairGe k) := by
  constructor
  intro a b
  unfold pairGe
  rcases ha : k a with ⟨p1, p2⟩
  rcases hb : k b with ⟨q1, q2⟩
  simp only [natPairGeB, Bool.or_eq_true, Bool.and_eq_true, decide_eq_true_eq, beq_iff_eq]
  omega

instance {α : Type} (k : α → Nat × Nat) : IsTrans α (pairGe k) := by
  constructor
  intro a b c
  unfold pairGe
  rcases ha : k a with ⟨p1, p2⟩
  rcases hb : k b with ⟨q1, q2⟩
  rcases hc : k c with ⟨s1, s2⟩
  simp only [natPairGeB, Bool.or_eq_true, Bool.and_eq_true, decide_eq_true_eq, beq_iff_eq]
  omega

/-! ### Goals table and its partition migration

`migrateGoalsTable` (multiUserAdapter.ts, lines 119-158) checks
`PRAGMA <db>.table_info(goals)` for an `agentId` column; when missing it runs
`ALTER TABLE goals ADD COLUMN agentId TEXT` (existing rows get NULL),
`UPDATE goals SET agentId = DEFAULT_UUID WHERE agentId IS NULL`, and then
rebuilds the table: `CREATE goals_new` with `agentId TEXT NOT NULL` declared
fourth, `INSERT INTO goals_new SELECT * FROM goals`, `DROP`, `RENAME`.

Column order matters for the rebuild. A pre-migration goals table has the
legacy column order `(id, roomId, userId, name, status, objectives)`; the
`ALTER` appends `agentId` last, giving
`(id, roomId, userId, name, status, objectives, agentId)`, while `goals_new`
declares `(id, roomId, userId, agentId, name, status, objectives)`.
`INSERT INTO goals_new SELECT *` has no column list, so SQLite assigns the
seven selected values positionally: old `name` lands in `agentId`, old
`status` in `name`, old `objectives` in `status`, and the just-backfilled
`agentId` value in `objectives`.

A pre-migration table is modelled with `hasAgentId = false`; its rows carry
`agentId = none` only as a placeholder for the absent column, and the `ALTER`
step materialises that column as NULL explicitly. -/

/-- Documented default agent id (`DEFAULT_UUID`, multiUserAdapter.ts line 10). -/
def DEFAULT_UUID : String := "00000000-0000-0000-0000-000000000000"

/-- One row of a partition's `goals` table. -/
structure GoalRow where
  id : String
  roomId : String
  userId : String
  agentId : Option String
  name : String
  status : String
  objectives : String
deriving DecidableEq

/-- A partition's `goals` table: whether the `agentId` column exists, plus the rows. -/
structure GoalsTable where
  hasAgentId : Bool
  rows : List GoalRow
deriving DecidableEq

/-- `migrateGoalsTable` (multiUserAdapter.ts, lines 119-158). -/
def migrateGoalsTable (t : GoalsTable) : GoalsTable :=
  if t.hasAgentId then t
  else
    -- ALTER TABLE goals ADD COLUMN agentId TEXT: the appended column is NULL everywhere
    let added := t.rows.map (fun r => { r with agentId := none })
    -- UPDATE goals SET agentId = DEFAULT_UUID WHERE agentId IS NULL
    let backfilled := added.map
      (fun r => if r.agentId = none then { r with agentId := some DEFAULT_UUID } else r)
    -- INSERT INTO goals_new SELECT * FROM goals: the positional copy described
    -- above. Source value order: (id, roomId, userId, name, status, objectives,
    -- agentId); goals_new column order: (id, roomId, userId, agentId, name,
    -- status, objectives). The UPDATE has just removed every NULL `agentId`, so
    -- the `Option.getD` default (a NULL that goals_new's NOT NULL constraint
    -- would reject) is never taken.
    let rebuilt := backfilled.map (fun r =>
      { id := r.id, roomId := r.roomId, userId := r.userId,
        agentId := some r.name, name := r.status, status := r.objectives,
        objectives := r.agentId.getD "" })
    -- DROP TABLE goals; ALTER TABLE goals_new RENAME TO goals
    { hasAgentId := true, rows := rebuilt }

/-! ### Knowledge table -/

/-- The `metadata` object inside a knowledge row's serialized `content`
(keys used by the core, spec section 6; JS object literals omit absent keys,
modelled by the defaults). -/
structure KMetadata where
  source : Option String := none
  ktype : Option String := none
  isShared : Bool := false
  isMain : Bool := false
  isChunk : Bool := false
  originalId : Option String := none
  chunkIndex : Option Nat := none
deriving DecidableEq

/-- The serialized `content` column: `{text, metadata}`. -/
structure KContent where
  text : String
  metadata : KMetadata
deriving DecidableEq

/-- One row of a partition's `knowledge` table
(columns per the CREATE TABLE in multiUserAdapter.ts, lines 207-217; the
`isMain`/`originalId`/`chunkIndex`/`isShared` columns duplicate the
corresponding metadata keys, as written by `createKnowledge`). -/
structure KnowledgeRow where
  id : String
  agentId : Option String
  content : KContent
  embedding : Option (List ℚ)
  createdAt : Nat
  isMain : Bool
  originalId : Option String
  chunkIndex : Option Nat
  isShared : Bool
deriving DecidableEq

/-- `RAGKnowledgeItem` as handed to the adapter's `createKnowledge`. -/
structure KItem where
  id : String
  agentId : String
  content : KContent
  embedding : Option (List ℚ)
  createdAt : Nat
deriving DecidableEq

/-- The ids stored in a knowledge table. -/
def idsOf (t : List KnowledgeRow) : List String := t.map KnowledgeRow.id

/-- Database errors surfaced by the modelled engine: the only statement that
can fail in this model is an INSERT violating the `id` primary key. -/
inductive DbError
  | primaryKey
deriving DecidableEq

/-- The row `createKnowledge` binds into its INSERT (multiUserAdapter.ts,
lines 1178-1202). JS truthiness is made explicit: `metadata.isShared ? null :
knowledge.agentId` nulls the owner of shared items, and
`metadata.chunkIndex || null` maps a 0 chunk index to NULL because 0 is falsy. -/
def rowOfItem (item : KItem) : KnowledgeRow :=
  let md := item.content.metadata
  { id := item.id
    agentId := if md.isShared then none else some item.agentId
    content := item.content
    embedding := item.embedding
    createdAt := item.createdAt
    isMain := md.isMain
    originalId := md.originalId
    chunkIndex := match md.chunkIndex with
      | some 0 => none
      | x => x
    isShared := md.isShared }

/-- `INSERT INTO knowledge ...`: fails iff the primary key `id` already exists. -/
def insertKnowledgeRow (t : List KnowledgeRow) (r : KnowledgeRow) :
    Except DbError (List KnowledgeRow) :=
  if t.any (fun x => x.id == r.id) then .error .primaryKey else .ok (t ++ [r])

/-- Adapter `createKnowledge` (multiUserAdapter.ts, lines 1175-1230).
The catch clause mirrors the source: a primary-key error on a shared item is
swallowed (`return`), an error on a non-shared item is rethrown only when its
message does not mention the primary-key constraint, and every other case
falls through to the final debug log, i.e. is swallowed as well. -/
def createKnowledge (t : List KnowledgeRow) (item : KItem) :
    Except DbError (List KnowledgeRow) :=
  match insertKnowledgeRow t (rowOfItem item) with
  | .ok t2 => .ok t2
  | .error e =>
    if item.content.metadata.isShared && (e == DbError.primaryKey) then .ok t
    else if !item.content.metadata.isShared && !(e == DbError.primaryKey) then .error e
    else .ok t

/-- The table produced by a `createKnowledge` call: insert the bound row
unless the id is already present, in which case the table is unchanged. -/
def createKnowledgeT (t : List KnowledgeRow) (item : KItem) : List KnowledgeRow :=
  if t.any (fun x => x.id == item.id) then t else t ++ [rowOfItem item]

/-- Multi-user `removeKnowledge` (multiUserAdapter.ts, lines 295-356; the base
adapter version at lines 1788-1837 runs the same statements against the main
partition). An id containing `*` becomes a LIKE pattern via the
first-occurrence JS `replace`; otherwise one transaction deletes the rows whose
`json_extract(content, '$.metadata.originalId')` equals the id and then the
row whose `id` equals it. Rows without an `originalId` key yield SQL NULL,
and `NULL = ?` is not true, so they are untouched by the chunk delete. -/
def removeKnowledge (t : List KnowledgeRow) (id : String) : List KnowledgeRow :=
  if id.data.contains '*' then
    let pattern := String.mk (replaceFirstStar id.data)
    t.filter (fun r => !(sqlLike pattern r.id))
  else
    let afterChunkDelete := t.filter (fun r => !(r.content.metadata.originalId == some id))
    afterChunkDelete.filter (fun r => !(r.id == id))

/-- Multi-user `clearKnowledge` (multiUserAdapter.ts, lines 358-378; base
version at lines 1839-1852): with `shared` it runs
`DELETE ... WHERE (agentId = ? OR isShared = 1)`, without it
`DELETE ... WHERE agentId = ?`. `NULL = ?` is not true in SQL, so rows with a
NULL owner match only through the `isShared` disjunct. -/
def clearKnowledge (t : List KnowledgeRow) (agentId : String) (shared : Bool) :
    List KnowledgeRow :=
  if shared then t.filter (fun r => !(r.agentId == some agentId || r.isShared))
  else t.filter (fun r => !(r.agentId == some agentId))

/-! ### Knowledge manager ingestion (`RAGKnowledgeManager.processFile`,
src/unnamed/part_003 lines 529-631)

`splitChunks` (generation.ts) and `stringToUuid` (uuid.ts) are imported by the
manager but their code is not part of the repository snapshot; they are pure,
so they appear here as opaque function parameters `split` and `uuidF`.
The external embedding call `embed` likewise becomes a parameter `embedF`.
The enclosing tenant routing (`userId` selects the partition) is a choice of
which table list the operations run against; the model works on that table. -/

/-- The source for one ingestion: `{path, content, type, isShared}`. -/
structure FileInput where
  path : String
  content : String
  ftype : String
  isShared : Bool
deriving DecidableEq

/-- `generateScopedId` (part_003, lines 522-527): prefix the path with the
sharing scope, then hash with `stringToUuid`. The `KnowledgeScope` constants
come from types.ts, which is outside the snapshot; modelled from the spec:
a sharing-scope tag distinguishing shared from private sources. -/
def generateScopedId (uuidF : String → String) (path : String) (isShared : Bool) : String :=
  uuidF ((if isShared then "shared" else "private") ++ "-" ++ path)

/-- The stable main-document id `processFile` derives:
`generateScopedId(file.path.replace(/\\/g, "/"), !!file.isShared)`. -/
def fileIdOf (uuidF : String → String) (f : FileInput) : String :=
  generateScopedId uuidF (replaceChar '\\' '/' f.path) f.isShared

/-- The main knowledge item `processFile` stores. Note that the text embedded
(`processedContent.slice(0, 8192)`) and the text stored are `file.content`
itself: `processFile` assigns `let processedContent: string = file.content`
and never applies `preprocess` to it. -/
def mainFileItem (uuidF : String → String) (embedF : String → List ℚ)
    (agentId : String) (now : Nat) (f : FileInput) : KItem :=
  { id := fileIdOf uuidF f
    agentId := agentId
    content :=
      { text := f.content
        metadata :=
          { source := some (replaceChar '\\' '/' f.path)
            ktype := some f.ftype
            isShared := f.isShared
            isMain := true } }
    embedding := some (embedF (sliceTo f.content 8192))
    createdAt := now }

/-- The chunk item `processFile` stores for chunk number `idx`:
id `fileId-chunk-idx`, metadata `{source, type, isShared, isChunk: true,
originalId: fileId, chunkIndex: idx}`, its own embedding of the chunk text. -/
def chunkFileItem (uuidF : String → String) (embedF : String → List ℚ)
    (agentId : String) (now : Nat) (f : FileInput) (idx : Nat) (chunk : String) : KItem :=
  { id := fileIdOf uuidF f ++ "-chunk-" ++ toString idx
    agentId := agentId
    content :=
      { text := chunk
        metadata :=
          { source := some (replaceChar '\\' '/' f.path)
            ktype := some f.ftype
            isShared := f.isShared
            isChunk := true
            originalId := some (fileIdOf uuidF f)
            chunkIndex := some idx } }
    embedding := some (embedF chunk)
    createdAt := now }

/-- `processFile` (part_003, lines 529-631): embed the (raw) content, store the
main item, split into chunks with `splitChunks(content, 512, 20)`, embed and
store each chunk. The whole body sits in one try/catch whose catch swallows a
primary-key error when the file is shared and rethrows anything else; in this
model the adapter's own catch already absorbs every primary-key error, so the
outer catch never fires (its swallow branch keeps the caller's view of the
table, mirroring that `processFile` returns normally). -/
def processFile (split : String → Nat → Nat → List String) (uuidF : String → String)
    (embedF : String → List ℚ) (agentId : String) (now : Nat)
    (t : List KnowledgeRow) (f : FileInput) : Except DbError (List KnowledgeRow) :=
  match createKnowledge t (mainFileItem uuidF embedF agentId now f) with
  | .error e => if f.isShared && (e == DbError.primaryKey) then .ok t else .error e
  | .ok t1 =>
    match (split f.content 512 20).enum.foldlM
        (fun acc ic => createKnowledge acc (chunkFileItem uuidF embedF agentId now f ic.1 ic.2))
        t1 with
    | .error e => if f.isShared && (e == DbError.primaryKey) then .ok t else .error e
    | .ok t2 => .ok t2

/-- The table state produced by a (necessarily non-throwing) `processFile` run. -/
def processFileT (split : String → Nat → Nat → List String) (uuidF : String → String)
    (embedF : String → List ℚ) (agentId : String) (now : Nat)
    (t : List KnowledgeRow) (f : FileInput) : List KnowledgeRow :=
  (split f.content 512 20).enum.foldl
    (fun acc ic => createKnowledgeT acc (chunkFileItem uuidF embedF agentId now f ic.1 ic.2))
    (createKnowledgeT t (mainFileItem uuidF embedF agentId now f))

/-! ### Adapter knowledge search (`searchKnowledge`, multiUserAdapter.ts
lines 1020-1173)

The SQL is modelled clause by clause.  The distance function
`vec_distance_L2` is supplied by the sqlite-vec extension, outside the
snapshot; it appears as the parameter `dist`.  Scores are `Option ℚ` because
SQL expressions over a NULL embedding are NULL.  SQLite resolves `AND` tighter
than `OR`, so the row predicates below parenthesise exactly as the engine
parses the statement text; in particular, in the final WHERE clause

  WHERE (k.agentId IS NULL AND k.isShared = 1) OR k.agentId = ?
  AND ( v.vector_score >= ? OR (kw.keyword_score > 1.0 AND v.vector_score >= 0.3) )

the score condition binds only to the `k.agentId = ?` disjunct: rows of the
shared pool are not score-filtered at all. -/

/-- `1 / (1 + vec_distance_L2(embedding, ?))` (NULL embedding gives NULL). -/
def vectorScore (dist : List ℚ → List ℚ → ℚ) (qe : List ℚ) (r : KnowledgeRow) : Option ℚ :=
  r.embedding.map (fun e => 1 / (1 + dist e qe))

/-- The keyword CASE expression: base 3.0 when
`lower(json_extract(content,'$.text')) LIKE '%' || lower(searchText) || '%'`
else 1.0, times 1.5 for a chunk, 1.2 for a main item, 1.0 otherwise.
`params.searchText?.toLowerCase() || ""` makes the pattern `%%` (match-all)
when no search text is given. -/
def keywordScore (st : Option String) (r : KnowledgeRow) : ℚ :=
  (if sqlLike ("%" ++ asciiLower (st.getD "") ++ "%") (asciiLower r.content.text)
    then 3 else 1) *
  (if r.content.metadata.isChunk then 3/2
   else if r.content.metadata.isMain then 6/5
   else 1)

/-- Row filter of the `vector_scores` CTE:
`WHERE (agentId IS NULL AND isShared = 1) OR agentId = ? AND embedding IS NOT NULL`
(the `embedding IS NOT NULL` conjunct binds only to `agentId = ?`). -/
def vsPred (a : String) (r : KnowledgeRow) : Bool :=
  (r.agentId == none && r.isShared) || (r.agentId == some a && !(r.embedding == none))

/-- SQL `expr >= bound` on a nullable score: NULL compares as not-true. -/
def optGeB (x : Option ℚ) (bound : ℚ) : Bool :=
  match x with
  | none => false
  | some v => decide (bound ≤ v)

/-- The final WHERE clause as SQLite parses it (AND before OR): a row passes
when it is a shared-pool row, or when it belongs to the searched agent and
meets the score condition. -/
def finalPred (dist : List ℚ → List ℚ → ℚ) (qe : List ℚ) (a : String) (st : Option String)
    (thr : ℚ) (r : KnowledgeRow) : Bool :=
  (r.agentId == none && r.isShared) ||
    (r.agentId == some a &&
      (optGeB (vectorScore dist qe r) thr ||
        (decide ((1 : ℚ) < keywordScore st r) && optGeB (vectorScore dist qe r) (3/10))))

/-- `combined_score = v.vector_score * kw.keyword_score`. -/
def combinedScore (dist : List ℚ → List ℚ → ℚ) (qe : List ℚ) (st : Option String)
    (r : KnowledgeRow) : Option ℚ :=
  (vectorScore dist qe r).map (fun v => v * keywordScore st r)

/-- The row set of the hybrid search statement: the joins are on the primary
key `id`, so the SELECT is the rows passing both the CTE filter and the final
WHERE, ordered by `combined_score DESC` (NULL last, SQLite default for DESC),
limited to `match_count`. -/
def searchKnowledgeRows (dist : List ℚ → List ℚ → ℚ) (qe : List ℚ) (a : String)
    (st : Option String) (thr : ℚ) (cnt : Nat) (t : List KnowledgeRow) : List KnowledgeRow :=
  (List.insertionSort (keyGe (combinedScore dist qe st))
      (t.filter (fun r => vsPred a r && finalPred dist qe a st thr r))).take cnt

/-- Fallback row filter when the vector function is unavailable
(multiUserAdapter.ts, lines 1122-1141):
`WHERE (agentId = ? OR isShared = 1)` plus, when a search text was supplied,
`AND json_extract(content, '$.text') LIKE '%' || lower(searchText) || '%'`
(LIKE itself folds ASCII case). -/
def fallbackPred (a : String) (st : Option String) (r : KnowledgeRow) : Bool :=
  (r.agentId == some a || r.isShared) &&
    (match st with
     | none => true
     | some s => sqlLike ("%" ++ asciiLower s ++ "%") r.content.text)

/-- Fallback sort key:
`ORDER BY CASE WHEN json_extract(content,'$.metadata.isMain') = 1 THEN 2 ELSE 1 END DESC, createdAt DESC`. -/
def fallbackKey (r : KnowledgeRow) : Nat × Nat :=
  ((if r.content.metadata.isMain then 2 else 1), r.createdAt)

/-- The fallback (keyword-only) search statement. -/
def searchKnowledgeFallback (a : String) (st : Option String) (cnt : Nat)
    (t : List KnowledgeRow) : List KnowledgeRow :=
  (List.insertionSort (pairGe fallbackKey) (t.filter (fallbackPred a st))).take cnt

/-- A search result entry as serialized into the cache and returned to the
caller: the row plus its `similarity` field (`combined_score`; the fallback
rows carry no similarity). -/
abbrev ScoredK := KnowledgeRow × Option ℚ

/-- One row of the `cache` table, primary key `(key, agentId)`; the `value`
column holds the serialized result list, modelled structurally. -/
structure CacheRow where
  key : String
  agentId : String
  value : List ScoredK
deriving DecidableEq

/-- The cache key `searchKnowledge` builds:
`` `embedding_${params.agentId}_${params.searchText}` `` — JS template
interpolation renders an absent search text as the string `undefined`. -/
def cacheKey (a : String) (st : Option String) : String :=
  "embedding_" ++ a ++ "_" ++ (match st with | some s => s | none => "undefined")

/-- `getCache` (multiUserAdapter.ts, lines 1233-1243):
`SELECT value FROM cache WHERE (key = ? AND agentId = ?)`. -/
def getCache (c : List CacheRow) (k : String) (a : String) : Option (List ScoredK) :=
  (c.find? (fun e => e.key == k && e.agentId == a)).map CacheRow.value

/-- `setCache` (multiUserAdapter.ts, lines 1245-1254):
`INSERT OR REPLACE INTO cache (key, agentId, value, createdAt) VALUES (...)`. -/
def setCache (c : List CacheRow) (k : String) (a : String) (v : List ScoredK) :
    List CacheRow :=
  ⟨k, a, v⟩ :: c.filter (fun e => !(e.key == k && e.agentId == a))

/-- Adapter `searchKnowledge` (multiUserAdapter.ts, lines 1020-1173): check the
cache under `(cacheKey, agentId)` and return the parsed hit; otherwise run the
hybrid statement when the vector function is available (`vss = true`), or — the
catch branch for `no such function: vec_distance_L2` — the fallback statement,
then write the results through to the cache. Serialization of the cached value
round-trips and is modelled as the identity. -/
def searchKnowledge (dist : List ℚ → List ℚ → ℚ) (vss : Bool) (qe : List ℚ)
    (a : String) (st : Option String) (thr : ℚ) (cnt : Nat)
    (c : List CacheRow) (t : List KnowledgeRow) : List ScoredK × List CacheRow :=
  let key := cacheKey a st
  match getCache c key a with
  | some v => (v, c)
  | none =>
    let results : List ScoredK :=
      if vss then
        (searchKnowledgeRows dist qe a st thr cnt t).map
          (fun r => (r, combinedScore dist qe st r))
      else
        (searchKnowledgeFallback a st cnt t).map (fun r => (r, none))
    (results, setCache c key a results)

/-! ### Memories (`BaseSqliteAdapter.createMemory` /
`searchMemoriesByEmbedding`, multiUserAdapter.ts lines 1491-1531 and
1620-1711) -/

/-- One row of the `memories` table. `uniqueFlag` models the `"unique"`
column, `mtype` the `type` column. -/
structure MemoryRow where
  id : String
  mtype : String
  content : String
  embedding : Option (List ℚ)
  userId : String
  roomId : String
  agentId : String
  uniqueFlag : Bool
  createdAt : Nat
deriving DecidableEq

/-- The `Memory` payload handed to `createMemory`. -/
structure MemoryInput where
  id : String
  content : String
  embedding : Option (List ℚ)
  userId : String
  roomId : String
  agentId : String
  createdAt : Nat
deriving DecidableEq

/-- `searchMemoriesByEmbedding` (base adapter, lines 1620-1711), vector path:
`SELECT *, vec_distance_L2(embedding, ?) AS similarity FROM memories WHERE
embedding IS NOT NULL AND type = ? AND agentId = ? [AND "unique" = 1]
[AND roomId = ?] ORDER BY similarity DESC [LIMIT ?]`.
The `matchThreshold` parameter is accepted but never referenced by the SQL:
no similarity bound is applied. (`similarity` here is the raw L2 distance.) -/
def searchMemoriesByEmbedding (dist : List ℚ → List ℚ → ℚ) (t : List MemoryRow)
    (qe : List ℚ) (matchThreshold : Option ℚ) (cnt : Option Nat) (roomId : Option String)
    (agentId : String) (uniq : Bool) (tableName : String) : List MemoryRow :=
  let _ := matchThreshold
  let matching := t.filter (fun r =>
    !(r.embedding == none) && r.mtype == tableName && r.agentId == agentId
      && (!uniq || r.uniqueFlag)
      && (match roomId with | some rid => r.roomId == rid | none => true))
  let sorted := List.insertionSort
    (keyGe (fun r : MemoryRow => some (dist (r.embedding.getD []) qe))) matching
  -- `if (params.count)` appends the LIMIT clause: a missing or zero (falsy)
  -- count leaves the query unlimited
  match cnt with
  | some n => if n = 0 then sorted else sorted.take n
  | none => sorted

/-- `createMemory` (base adapter, lines 1491-1531): when the memory carries an
embedding, probe `searchMemoriesByEmbedding` with `match_threshold: 0.95,
count: 1` scoped to the same table, agent and room; `isUnique` is
`similarMemories.length === 0`. The stored embedding defaults to a 384-zero
vector when absent or empty, and the row is written with INSERT OR REPLACE. -/
def createMemory (dist : List ℚ → List ℚ → ℚ) (t : List MemoryRow) (m : MemoryInput)
    (tableName : String) : List MemoryRow :=
  let isUnique : Bool :=
    match m.embedding with
    | none => true
    | some e =>
      (searchMemoriesByEmbedding dist t e (some (95/100)) (some 1) (some m.roomId)
          m.agentId false tableName).length == 0
  let embeddingValue : List ℚ :=
    match m.embedding with
    | some e => if 0 < e.length then e else List.replicate 384 0
    | none => List.replicate 384 0
  let row : MemoryRow :=
    { id := m.id, mtype := tableName, content := m.content,
      embedding := some embeddingValue, userId := m.userId, roomId := m.roomId,
      agentId := m.agentId, uniqueFlag := isUnique, createdAt := m.createdAt }
  row :: t.filter (fun r => !(r.id == m.id))

/-! ### Knowledge manager retrieval (`RAGKnowledgeManager.getKnowledge`,
src/unnamed/part_003 lines 180-291) and its rerank helpers.

`preprocess` (lines 121-146) is a pure chain of regex rewrites; the retrieval
claims settled here do not depend on its internals, so it is passed in as an
opaque pure parameter `pp`. The embedding call and the adapter calls can
throw, so they are `Except`-valued parameters. -/

/-- The stop-word set of the manager (part_003, lines 56-102). -/
def stopWords : List String :=
  ["a", "an", "and", "are", "as", "at", "be", "by", "does", "for", "from", "had",
   "has", "have", "he", "her", "his", "how", "hey", "i", "in", "is", "it", "its",
   "of", "on", "or", "that", "the", "this", "to", "was", "what", "when", "where",
   "which", "who", "will", "with", "would", "there", "their", "they", "your", "you"]

/-- `getQueryTerms` (part_003, lines 107-113): lower-case, split on spaces,
keep terms longer than 2 that are not stop words. -/
def getQueryTerms (q : String) : List String :=
  (((asciiLower q).splitOn " ").filter (fun term => 2 < term.length)).filter
    (fun term => !(stopWords.contains term))

/-- `hasProximityMatch` (part_003, lines 148-178): collect every position of a
word containing one of the terms, sort ascending, and succeed when two
adjacent positions are at most 5 apart. -/
def hasProximityMatch (text : String) (terms : List String) : Bool :=
  if text.isEmpty || terms.isEmpty then false
  else
    let words := ((asciiLower text).splitOn " ").filter (fun w => 0 < w.length)
    let allPositions := List.insertionSort (fun a b : Nat => a ≤ b)
      (terms.flatMap (fun term =>
        words.enum.filterMap (fun iw =>
          if isInfOf term.data iw.2.data then some iw.1 else none)))
    if allPositions.length < 2 then false
    else (allPositions.zip allPositions.tail).any
      (fun p => decide (max p.1 p.2 - min p.1 p.2 ≤ 5))

/-- A `RAGKnowledgeItem` as the manager sees a search result: content plus the
`similarity` score reported by the adapter. -/
structure RagHit where
  id : String
  content : KContent
  similarity : ℚ
deriving DecidableEq

/-- The rerank scoring of `getKnowledge` (part_003, lines 236-274): boost by
`1 + (matched/total) * 2` when at least one query term occurs in the text,
times 1.5 on a proximity match; multiply by 0.3 when nothing matched and no
conversation context was supplied. -/
def rerankScore (processedQuery : String) (ctx : Option String) (h : RagHit) : ℚ :=
  let queryTerms := getQueryTerms processedQuery
  let matching := queryTerms.filter
    (fun term => isInfOf term.data (asciiLower h.content.text).data)
  if 0 < matching.length then
    let boosted := h.similarity * (1 + ((matching.length : ℚ) / (queryTerms.length : ℚ)) * 2)
    if hasProximityMatch h.content.text matching then boosted * (3/2) else boosted
  else
    match ctx with
    | none => h.similarity * (3/10)
    | some _ => h.similarity

/-- JavaScript `x || d` on an optional numeric `x`: both `undefined` and `0`
are falsy, so a missing or zero value falls back to the default. -/
def jsOrNat (x : Option Nat) (dflt : Nat) : Nat :=
  match x with
  | some n => if n = 0 then dflt else n
  | none => dflt

/-- Default match threshold of the manager (part_003, line 50). -/
def defaultRAGMatchThreshold : ℚ := 85/100

/-- Default match count of the manager (part_003, line 51). -/
def defaultRAGMatchCount : Nat := 8

/-- The search text `getKnowledge` embeds: the preprocessed conversation
context (when given) concatenated before the preprocessed query. -/
def ragSearchText (pp : String → String) (ctx : Option String) (q : String) : String :=
  match ctx with
  | some c => pp c ++ " " ++ pp q
  | none => pp q

/-- The argument record of an adapter `searchKnowledge` call. -/
structure SearchCall where
  agentId : String
  embedding : List ℚ
  matchThreshold : ℚ
  matchCount : Nat
  searchText : Option String
deriving DecidableEq

/-- The adapter call `getKnowledge` issues (part_003, lines 224-233):
threshold 0.85 and `match_count` = `(params.limit || defaultRAGMatchCount) * 2`;
JS `||` treats a zero limit like an absent one, falling back to 8. -/
def ragSearchCall (agentId : String) (emb : List ℚ) (processedQuery : String)
    (limit : Option Nat) : SearchCall :=
  { agentId := agentId, embedding := emb, matchThreshold := defaultRAGMatchThreshold,
    matchCount := (jsOrNat limit defaultRAGMatchCount) * 2,
    searchText := some processedQuery }

/-- The parameters of `getKnowledge`. -/
structure GetKParams where
  query : Option String := none
  id : Option String := none
  conversationContext : Option String := none
  limit : Option Nat := none
deriving DecidableEq

/-- The query branch of `getKnowledge` (part_003, lines 206-290): inside one
try/catch, preprocess, embed, search, rerank, sort by score descending, drop
scores below the threshold, return at most `params.limit || 8` results (zero
is falsy); the catch turns any error from these steps into an empty result.
Without a query the call returns `[]`. -/
def getKnowledgeQuery (pp : String → String) (embedF : String → Except String (List ℚ))
    (searchF : SearchCall → Except String (List RagHit)) (agentId : String)
    (p : GetKParams) : Except String (List RagHit) :=
  match p.query with
  | none => .ok []
  | some q =>
    match embedF (ragSearchText pp p.conversationContext q) with
    | .error _ => .ok []
    | .ok emb =>
      match searchF (ragSearchCall agentId emb (pp q) p.limit) with
      | .error _ => .ok []
      | .ok results =>
        let reranked := List.insertionSort (keyGe (fun s : RagHit × ℚ => some s.2))
          (results.map (fun h => (h, rerankScore (pp q) p.conversationContext h)))
        .ok (((reranked.filter (fun s => decide (defaultRAGMatchThreshold ≤ s.2))).map
            Prod.fst).take (jsOrNat p.limit defaultRAGMatchCount))

/-- `getKnowledge` (part_003, lines 180-291). The direct id lookup runs before
the try/catch, so only the query path degrades errors to `[]`; a nonempty
direct hit returns immediately, otherwise the query branch runs. -/
def getKnowledge (pp : String → String) (embedF : String → Except String (List ℚ))
    (directF : String → Except String (List RagHit))
    (searchF : SearchCall → Except String (List RagHit)) (agentId : String)
    (p : GetKParams) : Except String (List RagHit) :=
  match p.id with
  | some i =>
    match directF i with
    | .error e => .error e
    | .ok l =>
      if 0 < l.length then .ok l
      else getKnowledgeQuery pp embedF searchF agentId p
  | none => getKnowledgeQuery pp embedF searchF agentId p

/-! ### Concrete instances used by counterexamples and witnesses -/

/-- Squared Euclidean distance: a concrete rational stand-in for the vector
engine's distance function in counterexamples and witnesses (none of the
refutations depends on the metric chosen). -/
def distSq (a b : List ℚ) : ℚ :=
  ((a.zip b).map (fun p => (p.1 - p.2) * (p.1 - p.2))).sum

/-- A shared-pool knowledge row far from the query embedding and without a
keyword hit. -/
def c4SharedRow : KnowledgeRow :=
  { id := "shared-1", agentId := none,
    content := { text := "zzz", metadata := { isShared := true } },
    embedding := some [0], createdAt := 5, isMain := false, originalId := none,
    chunkIndex := none, isShared := true }

/-- A stored memory whose embedding is far from the incoming one. -/
def c6ExistingMemory : MemoryRow :=
  { id := "m1", mtype := "messages", content := "old", embedding := some [0],
    userId := "u", roomId := "room", agentId := "agent", uniqueFlag := true,
    createdAt := 1 }

/-- A new memory dissimilar to the stored one. -/
def c6NewMemory : MemoryInput :=
  { id := "m2", content := "new", embedding := some [100], userId := "u",
    roomId := "room", agentId := "agent", createdAt := 2 }

/-- A markdown source whose raw text differs from any case-folded text. -/
def c5File : FileInput :=
  { path := "a.md", content := "# Title HELLO WORLD", ftype := "md", isShared := true }

/-- A one-chunk splitter instance. -/
def c5Split : String → Nat → Nat → List String := fun s _ _ => [s]

/-- Identity hash instance for `stringToUuid`. -/
def c5Uuid : String → String := fun s => s

/-- Constant embedding instance. -/
def c5Embed : String → List ℚ := fun _ => [1]

/-- Identity preprocessing instance. -/
def c7pp : String → String := fun s => s

/-- An always-failing embedding provider. -/
def c7EmbedFail : String → Except String (List ℚ) := fun _ => .error "embed down"

/-- A trivial direct-lookup instance. -/
def c7Direct : String → Except String (List RagHit) := fun _ => .ok []

/-- A trivial store search instance. -/
def c7Search : SearchCall → Except String (List RagHit) := fun _ => .ok []

/-- Retrieval parameters with a query and no id. -/
def c7Params : GetKParams :=
  { query := some "hello world", id := none, conversationContext := none, limit := some 2 }

/-- A one-row pre-migration goals table: the failing input for C1. -/
def c1Table : GoalsTable :=
  { hasAgentId := false,
    rows := [{ id := "g1", roomId := "r1", userId := "u1", agentId := none,
               name := "quest", status := "IN_PROGRESS", objectives := "[]" }] }

/-- A shared knowledge item as handed to `createKnowledge`. -/
def c10Item : KItem :=
  { id := "shared-doc", agentId := "agent",
    content := { text := "shared text", metadata := { isShared := true, isMain := true } },
    embedding := some [1], createdAt := 3 }

/-- A main knowledge row with a chunk (parent/child pair) for the cascade
delete witness: the parent. -/
def c2Parent : KnowledgeRow :=
  { id := "doc-1", agentId := some "agent",
    content := { text := "parent text", metadata := { isMain := true, source := some "a.md" } },
    embedding := some [1], createdAt := 1, isMain := true, originalId := none,
    chunkIndex := none, isShared := false }

/-- The chunk of `c2Parent`. -/
def c2Chunk : KnowledgeRow :=
  { id := "doc-1-chunk-0", agentId := some "agent",
    content := { text := "parent", metadata :=
      { isChunk := true, originalId := some "doc-1", chunkIndex := some 0 } },
    embedding := some [1], createdAt := 1, isMain := false,
    originalId := some "doc-1", chunkIndex := some 0, isShared := false }

/-! ### Helper lemmas -/

theorem rowOfItem_id (item : KItem) : (rowOfItem item).id = item.id := rfl

theorem chunkFileItem_id (uuidF : String → String) (embedF : String → List ℚ)
    (agentId : String) (now : Nat) (f : FileInput) (idx : Nat) (chunk : String) :
    (chunkFileItem uuidF embedF agentId now f idx chunk).id
      = fileIdOf uuidF f ++ "-chunk-" ++ toString idx := rfl

/-- `createKnowledge` never throws in this model: the catch clause swallows
every primary-key violation (for shared items explicitly, for non-shared items
through the fall-through branch), and a primary-key violation is the only
error the modelled engine raises. The resulting table is `createKnowledgeT`. -/
theorem createKnowledge_eq (t : List KnowledgeRow) (item : KItem) :
    createKnowledge t item = .ok (createKnowledgeT t item) := by
  simp only [createKnowledge, insertKnowledgeRow, createKnowledgeT, rowOfItem_id]
  by_cases h : (t.any fun x => x.id == item.id) = true
  · simp only [if_pos h]
    cases hs : item.content.metadata.isShared <;> simp [hs]
  · simp [h]

theorem any_id_iff (t : List KnowledgeRow) (i : String) :
    t.any (fun x => x.id == i) = true ↔ i ∈ idsOf t := by
  simp only [List.any_eq_true, beq_iff_eq, idsOf, List.mem_map]

theorem mem_ids_createKnowledgeT_of_mem {t : List KnowledgeRow} {x : String}
    (item : KItem) (h : x ∈ idsOf t) : x ∈ idsOf (createKnowledgeT t item) := by
  unfold createKnowledgeT
  cases ha : t.any (fun r => r.id == item.id) with
  | true => simpa using h
  | false =>
    simp [idsOf] at h ⊢
    exact Or.inl h

theorem id_mem_ids_createKnowledgeT (t : List KnowledgeRow) (item : KItem) :
    item.id ∈ idsOf (createKnowledgeT t item) := by
  unfold createKnowledgeT
  cases ha : t.any (fun r => r.id == item.id) with
  | true => simpa using (any_id_iff t item.id).mp ha
  | false => simp [idsOf, rowOfItem_id]

theorem createKnowledgeT_of_mem {t : List KnowledgeRow} {item : KItem}
    (h : item.id ∈ idsOf t) : createKnowledgeT t item = t := by
  unfold createKnowledgeT
  simp [(any_id_iff t item.id).mpr h]

theorem nodup_ids_createKnowledgeT {t : List KnowledgeRow} (item : KItem)
    (h : (idsOf t).Nodup) : (idsOf (createKnowledgeT t item)).Nodup := by
  unfold createKnowledgeT
  cases ha : t.any (fun r => r.id == item.id) with
  | true => simpa using h
  | false =>
    have hni : item.id ∉ idsOf t := by
      intro hm
      rw [(any_id_iff t item.id).mpr hm] at ha
      cases ha
    simp only [Bool.false_eq_true, if_false, idsOf, List.map_append, List.map_cons,
      List.map_nil, rowOfItem_id]
    exact List.Nodup.append h (List.nodup_singleton _)
      (by simpa [idsOf] using hni)

theorem foldCK_mem_ids {α : Type} (mk : α → KItem) (l : List α) {acc : List KnowledgeRow}
    {x : String} (h : x ∈ idsOf acc) :
    x ∈ idsOf (l.foldl (fun a c => createKnowledgeT a (mk c)) acc) := by
  induction l generalizing acc with
  | nil => simpa using h
  | cons a as ih => exact ih (mem_ids_createKnowledgeT_of_mem (mk a) h)

theorem foldCK_mk_mem_ids {α : Type} (mk : α → KItem) (l : List α) {acc : List KnowledgeRow}
    {c : α} (hc : c ∈ l) :
    (mk c).id ∈ idsOf (l.foldl (fun a c => createKnowledgeT a (mk c)) acc) := by
  induction l generalizing acc with
  | nil => cases hc
  | cons a as ih =>
    rcases List.mem_cons.mp hc with rfl | h
    · exact foldCK_mem_ids mk as (id_mem_ids_createKnowledgeT acc (mk c))
    · exact ih h

theorem foldCK_noop {α : Type} (mk : α → KItem) (l : List α) {acc : List KnowledgeRow}
    (h : ∀ c ∈ l, (mk c).id ∈ idsOf acc) :
    l.foldl (fun a c => createKnowledgeT a (mk c)) acc = acc := by
  induction l with
  | nil => rfl
  | cons a as ih =>
    have hstep : createKnowledgeT acc (mk a) = acc :=
      createKnowledgeT_of_mem (h a (List.mem_cons_self a as))
    simp only [List.foldl_cons, hstep]
    exact ih (fun c hc => h c (List.mem_cons_of_mem a hc))

theorem foldCK_nodup {α : Type} (mk : α → KItem) (l : List α) {acc : List KnowledgeRow}
    (h : (idsOf acc).Nodup) :
    (idsOf (l.foldl (fun a c => createKnowledgeT a (mk c)) acc)).Nodup := by
  induction l generalizing acc with
  | nil => simpa using h
  | cons a as ih => exact ih (nodup_ids_createKnowledgeT (mk a) h)

theorem filter_id_length_one {t : List KnowledgeRow} {x : String}
    (hnd : (idsOf t).Nodup) (hx : x ∈ idsOf t) :
    (t.filter (fun r => r.id == x)).length = 1 := by
  induction t with
  | nil => cases hx
  | cons a as ih =>
    simp only [idsOf, List.map_cons, List.nodup_cons, List.mem_cons] at hnd hx
    rcases hx with hx | hx
    · subst hx
      have hnone : as.filter (fun r => r.id == a.id) = [] := by
        apply List.filter_eq_nil_iff.mpr
        intro r hr h
        exact hnd.1 (List.mem_map.mpr ⟨r, hr, by simpa using h⟩)
      simp [List.filter_cons, hnone]
    · have hne : (a.id == x) = false := by
        simp only [beq_eq_false_iff_ne, ne_eq]
        intro he
        exact hnd.1 (by simpa [he] using hx)
      simp [List.filter_cons, hne]
      exact ih hnd.2 hx

theorem foldlM_ok_createKnowledgeT {α : Type} (mk : α → KItem) (l : List α)
    (acc : List KnowledgeRow) :
    l.foldlM (fun a c => (Except.ok (createKnowledgeT a (mk c)) : Except DbError _)) acc
      = Except.ok (l.foldl (fun a c => createKnowledgeT a (mk c)) acc) := by
  induction l generalizing acc with
  | nil => rfl
  | cons a as ih =>
    simp only [List.foldlM_cons, List.foldl_cons]
    exact ih (createKnowledgeT acc (mk a))

/-- `processFile` never throws under this engine model, and its table effect is
`processFileT`. -/
theorem processFile_eq (split : String → Nat → Nat → List String) (uuidF : String → String)
    (embedF : String → List ℚ) (agentId : String) (now : Nat)
    (t : List KnowledgeRow) (f : FileInput) :
    processFile split uuidF embedF agentId now t f
      = .ok (processFileT split uuidF embedF agentId now t f) := by
  unfold processFile processFileT
  simp only [createKnowledge_eq, foldlM_ok_createKnowledgeT]

/-! ### Claim theorems -/

/-- Claim C1 (code bug): the migration is meant to add the `agentId` column,
backfill the all-zero UUID into it and copy every row unchanged into the
rebuilt table (spec section 4.1 and the claim). The source's
`INSERT INTO goals_new SELECT * FROM goals` has no column list, and `ALTER`
appended `agentId` last while `goals_new` declares it fourth, so SQLite's
positional assignment scrambles every pre-existing row. Evaluating the model
at the failing input — a partition whose goals table lacks the column and
holds the single row `(id "g1", roomId "r1", userId "u1", name "quest",
status "IN_PROGRESS", objectives "[]")` — the migrated row carries the old
`name` in `agentId` (not the documented default), the old `status` in `name`,
the old `objectives` in `status` and the backfilled default UUID in
`objectives`. The parts of the claim that do hold at this input are also
evaluated: the column now exists, no row is dropped or duplicated, and a
second run changes nothing. -/
theorem c1_goals_migration_scrambles_columns :
    c1Table.hasAgentId = false ∧
    (migrateGoalsTable c1Table).hasAgentId = true ∧
    (migrateGoalsTable c1Table).rows
      = [{ id := "g1", roomId := "r1", userId := "u1", agentId := some "quest",
           name := "IN_PROGRESS", status := "[]", objectives := DEFAULT_UUID }] ∧
    (∀ r ∈ (migrateGoalsTable c1Table).rows, r.agentId ≠ some DEFAULT_UUID) ∧
    (migrateGoalsTable c1Table).rows
      ≠ c1Table.rows.map (fun r => { r with agentId := some DEFAULT_UUID }) ∧
    (migrateGoalsTable c1Table).rows.length = c1Table.rows.length ∧
    migrateGoalsTable (migrateGoalsTable c1Table) = migrateGoalsTable c1Table := by
  decide

/-- Claim C2: for an id without a wildcard, `removeKnowledge` deletes exactly
the row with that id together with every row whose
`content.metadata.originalId` equals that id (the two DELETE statements run in
one `db.transaction`, which the pure list model renders atomic by
construction); a row with no `originalId` — in particular a parent main item —
survives a delete aimed at one of its chunks. -/
theorem c2_removeKnowledge_cascade (t : List KnowledgeRow) (id : String)
    (h : id.data.contains '*' = false) :
    (∀ r, r ∈ removeKnowledge t id ↔
        r ∈ t ∧ r.id ≠ id ∧ r.content.metadata.originalId ≠ some id) ∧
    (∀ p ∈ t, p.content.metadata.originalId = none → p.id ≠ id →
        p ∈ removeKnowledge t id) := by
  have hrw : removeKnowledge t id
      = (t.filter (fun r => !(r.content.metadata.originalId == some id))).filter
          (fun r => !(r.id == id)) := by
    unfold removeKnowledge
    rw [if_neg (by simpa using h)]
  constructor
  · intro r
    rw [hrw]
    simp only [List.mem_filter, Bool.not_eq_eq_eq_not, Bool.not_true, beq_eq_false_iff_ne,
      ne_eq]
    tauto
  · intro p hp ho hid
    rw [hrw]
    exact List.mem_filter.mpr
      ⟨List.mem_filter.mpr ⟨hp, by simp [ho]⟩, by simp [hid]⟩

/-- Witness for C2: deleting the chunk `doc-1-chunk-0` from a table holding a
parent and its chunk keeps the parent. -/
theorem c2_removeKnowledge_cascade_witness :
    ("doc-1-chunk-0".data.contains '*' = false) ∧
    ((∀ r, r ∈ removeKnowledge [c2Parent, c2Chunk] "doc-1-chunk-0" ↔
        r ∈ [c2Parent, c2Chunk] ∧ r.id ≠ "doc-1-chunk-0" ∧
          r.content.metadata.originalId ≠ some "doc-1-chunk-0") ∧
     (∀ p ∈ [c2Parent, c2Chunk], p.content.metadata.originalId = none →
        p.id ≠ "doc-1-chunk-0" → p ∈ removeKnowledge [c2Parent, c2Chunk] "doc-1-chunk-0")) :=
  ⟨by decide, c2_removeKnowledge_cascade [c2Parent, c2Chunk] "doc-1-chunk-0" (by decide)⟩

/-- Claim C10: `createKnowledge` stores an item whose metadata sets `isShared`
with a NULL `agentId` column and `isShared = 1` (any new row of the table is of
that shape), and `clearKnowledge` without the shared flag — which deletes only
rows whose `agentId` equals the given id — keeps every NULL-owner row, so it
never deletes a shared item. -/
theorem c10_shared_rows_survive_clear (t tz : List KnowledgeRow) (item : KItem) (a : String)
    (hsh : item.content.metadata.isShared = true) :
    (∀ r ∈ createKnowledgeT t item, r ∈ t ∨ (r.agentId = none ∧ r.isShared = true)) ∧
    (∀ r ∈ tz, r.agentId = none → r ∈ clearKnowledge tz a false) ∧
    (∀ r ∈ createKnowledgeT t item, r ∉ t →
        r ∈ clearKnowledge (createKnowledgeT t item) a false) := by
  have h1 : ∀ r ∈ createKnowledgeT t item, r ∈ t ∨ (r.agentId = none ∧ r.isShared = true) := by
    intro r hr
    unfold createKnowledgeT at hr
    by_cases ha : (t.any fun x => x.id == item.id) = true
    · rw [if_pos ha] at hr
      exact Or.inl hr
    · rw [if_neg ha] at hr
      rcases List.mem_append.mp hr with hm | hm
      · exact Or.inl hm
      · right
        have hre : r = rowOfItem item := by simpa using hm
        subst hre
        simp [rowOfItem, hsh]
  have h2 : ∀ (u : List KnowledgeRow), ∀ r ∈ u, r.agentId = none →
      r ∈ clearKnowledge u a false := by
    intro u r hr hra
    exact List.mem_filter.mpr ⟨hr, by simp [hra]⟩
  exact ⟨h1, h2 tz, fun r hr hnt =>
    h2 (createKnowledgeT t item) r hr (((h1 r hr).resolve_left hnt).1)⟩

/-- Witness for C10 at a shared item inserted into an empty table and a table
already holding a shared row. -/
theorem c10_shared_rows_survive_clear_witness :
    (c10Item.content.metadata.isShared = true) ∧
    ((∀ r ∈ createKnowledgeT [] c10Item, r ∈ ([] : List KnowledgeRow) ∨
        (r.agentId = none ∧ r.isShared = true)) ∧
     (∀ r ∈ [c4SharedRow], r.agentId = none → r ∈ clearKnowledge [c4SharedRow] "agent" false) ∧
     (∀ r ∈ createKnowledgeT [] c10Item, r ∉ ([] : List KnowledgeRow) →
        r ∈ clearKnowledge (createKnowledgeT [] c10Item) "agent" false)) :=
  ⟨rfl, c10_shared_rows_survive_clear [] [c4SharedRow] c10Item "agent" rfl⟩

set_option maxHeartbeats 1600000 in
/-- Claim C3: ingesting the same shared source twice is idempotent. The
derived ids are identical by construction (`fileIdOf` and the chunk ids depend
only on the scoped path and the chunk position), the second `processFile` call
returns without raising and leaves the table exactly as the first call left it
(every duplicate-key insert, main and chunks alike, is swallowed), and the
table holds exactly one row under the main id. This holds for every splitter,
hash and embedding function and for distinct timestamps of the two runs. -/
theorem c3_ingestion_idempotent
    (split : String → Nat → Nat → List String) (uuidF : String → String)
    (embedF : String → List ℚ) (agentId : String) (now now2 : Nat)
    (t0 : List KnowledgeRow) (f : FileInput)
    (hsh : f.isShared = true) (hnd : (idsOf t0).Nodup) :
    processFile split uuidF embedF agentId now t0 f
      = .ok (processFileT split uuidF embedF agentId now t0 f) ∧
    processFile split uuidF embedF agentId now2
        (processFileT split uuidF embedF agentId now t0 f) f
      = .ok (processFileT split uuidF embedF agentId now t0 f) ∧
    ((processFileT split uuidF embedF agentId now t0 f).filter
        (fun r => r.id == fileIdOf uuidF f)).length = 1 ∧
    (idsOf (processFileT split uuidF embedF agentId now t0 f)).Nodup := by
  have _ := hsh
  set t1 := processFileT split uuidF embedF agentId now t0 f with ht1
  have hmain_mem : fileIdOf uuidF f ∈ idsOf t1 := by
    rw [ht1]
    unfold processFileT
    exact foldCK_mem_ids (fun ic => chunkFileItem uuidF embedF agentId now f ic.1 ic.2)
      ((split f.content 512 20).enum)
      (id_mem_ids_createKnowledgeT t0 (mainFileItem uuidF embedF agentId now f))
  have hchunk_mem : ∀ ic ∈ (split f.content 512 20).enum,
      (chunkFileItem uuidF embedF agentId now f ic.1 ic.2).id ∈ idsOf t1 := by
    intro ic hic
    rw [ht1]
    unfold processFileT
    exact foldCK_mk_mem_ids (fun ic => chunkFileItem uuidF embedF agentId now f ic.1 ic.2)
      ((split f.content 512 20).enum) hic
  have hsecond : processFileT split uuidF embedF agentId now2 t1 f = t1 := by
    unfold processFileT
    have hmain2 : (mainFileItem uuidF embedF agentId now2 f).id ∈ idsOf t1 := hmain_mem
    rw [createKnowledgeT_of_mem hmain2]
    refine foldCK_noop (fun ic => chunkFileItem uuidF embedF agentId now2 f ic.1 ic.2)
      ((split f.content 512 20).enum) (fun c hc => ?_)
    have h0 := hchunk_mem c hc
    rw [chunkFileItem_id] at h0
    show (chunkFileItem uuidF embedF agentId now2 f c.1 c.2).id ∈ idsOf t1
    rw [chunkFileItem_id]
    exact h0
  have hnd1 : (idsOf t1).Nodup := by
    rw [ht1]
    unfold processFileT
    exact foldCK_nodup (fun ic => chunkFileItem uuidF embedF agentId now f ic.1 ic.2)
      ((split f.content 512 20).enum)
      (nodup_ids_createKnowledgeT (mainFileItem uuidF embedF agentId now f) hnd)
  refine ⟨processFile_eq split uuidF embedF agentId now t0 f, ?_, ?_, hnd1⟩
  · rw [processFile_eq, hsecond]
  · exact filter_id_length_one hnd1 hmain_mem

/-- Witness for C3: a shared markdown source ingested twice into an initially
empty partition. -/
theorem c3_ingestion_idempotent_witness :
    (c5File.isShared = true) ∧ (idsOf ([] : List KnowledgeRow)).Nodup ∧
    (processFile c5Split c5Uuid c5Embed "agent" 1 [] c5File
        = .ok (processFileT c5Split c5Uuid c5Embed "agent" 1 [] c5File) ∧
     processFile c5Split c5Uuid c5Embed "agent" 2
         (processFileT c5Split c5Uuid c5Embed "agent" 1 [] c5File) c5File
       = .ok (processFileT c5Split c5Uuid c5Embed "agent" 1 [] c5File) ∧
     ((processFileT c5Split c5Uuid c5Embed "agent" 1 [] c5File).filter
         (fun r => r.id == fileIdOf c5Uuid c5File)).length = 1 ∧
     (idsOf (processFileT c5Split c5Uuid c5Embed "agent" 1 [] c5File)).Nodup) :=
  ⟨rfl, List.nodup_nil,
    c3_ingestion_idempotent c5Split c5Uuid c5Embed "agent" 1 2 [] c5File rfl List.nodup_nil⟩

/-- Claim C5 (code bug): `processFile` is the `ingest(source)` path of the
spec, and the claim says the preprocessing pass (which, among the listed
rewrites, case-folds the text) is applied before the embedding call and before
chunking. The source instead assigns `let processedContent: string =
file.content` and never calls `preprocess`, so the text stored, embedded
(`processedContent.slice(0, 8192)`) and chunked (`splitChunks(processedContent,
512, 20)`) is the raw text. At the failing input `{path: "a.md", content:
"# Title HELLO WORLD", type: "md", isShared: true}` (with a one-chunk
splitter), both stored texts equal the raw content, the string handed to the
embedding call equals the raw content, and the raw content is not case-folded
— hence it cannot be the output of the documented preprocessing pass. -/
theorem c5_processFile_embeds_raw :
    ((processFileT c5Split c5Uuid c5Embed "agent" 7 [] c5File).map
        (fun r => r.content.text) = [c5File.content, c5File.content]) ∧
    sliceTo c5File.content 8192 = c5File.content ∧
    asciiLower c5File.content ≠ c5File.content := by
  decide

/-- Claim C7: for every choice of preprocessing, embedding provider and store
search (however they fail), and for every input without a direct-id lookup
(query text, optional conversation context, limit, tenant context), the
manager's `getKnowledge` never raises: the whole query path sits inside one
try/catch, so an embedding error or a store error yields `Except.ok []`
instead of propagating. -/
theorem c7_getKnowledge_never_raises (pp : String → String)
    (embedF : String → Except String (List ℚ))
    (directF : String → Except String (List RagHit))
    (searchF : SearchCall → Except String (List RagHit))
    (agentId : String) (p : GetKParams) (hid : p.id = none) :
    (∃ l, getKnowledge pp embedF directF searchF agentId p = .ok l) ∧
    (∀ q e, p.query = some q →
      embedF (ragSearchText pp p.conversationContext q) = .error e →
      getKnowledge pp embedF directF searchF agentId p = .ok []) ∧
    (∀ q emb er, p.query = some q →
      embedF (ragSearchText pp p.conversationContext q) = .ok emb →
      searchF (ragSearchCall agentId emb (pp q) p.limit) = .error er →
      getKnowledge pp embedF directF searchF agentId p = .ok []) := by
  have hkq : ∀ q, p.query = some q →
      getKnowledgeQuery pp embedF searchF agentId p
        = (match embedF (ragSearchText pp p.conversationContext q) with
           | .error _ => .ok []
           | .ok emb =>
             match searchF (ragSearchCall agentId emb (pp q) p.limit) with
             | .error _ => .ok []
             | .ok results =>
               .ok ((((List.insertionSort (keyGe (fun s : RagHit × ℚ => some s.2))
                   (results.map (fun h =>
                     (h, rerankScore (pp q) p.conversationContext h)))).filter
                     (fun s => decide (defaultRAGMatchThreshold ≤ s.2))).map Prod.fst).take
                 (jsOrNat p.limit defaultRAGMatchCount))) := by
    intro q hq
    unfold getKnowledgeQuery
    rw [hq]
  unfold getKnowledge
  simp only [hid]
  refine ⟨?_, ?_, ?_⟩
  · cases hq : p.query with
    | none => exact ⟨[], by unfold getKnowledgeQuery; rw [hq]⟩
    | some q =>
      cases he : embedF (ragSearchText pp p.conversationContext q) with
      | error e => exact ⟨[], by rw [hkq q hq]; simp only [he]⟩
      | ok emb =>
        cases hs : searchF (ragSearchCall agentId emb (pp q) p.limit) with
        | error er => exact ⟨[], by rw [hkq q hq]; simp only [he, hs]⟩
        | ok results =>
          exact ⟨(((List.insertionSort (keyGe (fun s : RagHit × ℚ => some s.2))
              (results.map (fun h => (h, rerankScore (pp q) p.conversationContext h)))).filter
                (fun s => decide (defaultRAGMatchThreshold ≤ s.2))).map Prod.fst).take
              (jsOrNat p.limit defaultRAGMatchCount),
            by rw [hkq q hq]; simp only [he, hs]⟩
  · intro q e hq he
    rw [hkq q hq]
    simp only [he]
  · intro q emb er hq he hs
    rw [hkq q hq]
    simp only [he, hs]

/-- Witness for C7: a query-only call with a failing embedding provider
returns the empty result. -/
theorem c7_getKnowledge_never_raises_witness :
    (c7Params.id = none) ∧
    ((∃ l, getKnowledge c7pp c7EmbedFail c7Direct c7Search "agent" c7Params = .ok l) ∧
     (∀ q e, c7Params.query = some q →
       c7EmbedFail (ragSearchText c7pp c7Params.conversationContext q) = .error e →
       getKnowledge c7pp c7EmbedFail c7Direct c7Search "agent" c7Params = .ok []) ∧
     (∀ q emb er, c7Params.query = some q →
       c7EmbedFail (ragSearchText c7pp c7Params.conversationContext q) = .ok emb →
       c7Search (ragSearchCall "agent" emb (c7pp q) c7Params.limit) = .error er →
       getKnowledge c7pp c7EmbedFail c7Direct c7Search "agent" c7Params = .ok [])) :=
  ⟨rfl, c7_getKnowledge_never_raises c7pp c7EmbedFail c7Direct c7Search "agent" c7Params rfl⟩

/-- Counterexample to Claim C6 as stated: the store holds a single memory of
the same table, agent and room whose embedding is far from the new one
(similarity `1/(1+distance)` is about 0.0001, far below the 0.95 bound), yet
`createMemory` records the new memory with `isUnique = false`, because
`searchMemoriesByEmbedding` never applies its `match_threshold` parameter and
so reports the dissimilar memory as a "similar" one. -/
theorem c6_counterexample :
    (1 / (1 + distSq [(0 : ℚ)] [(100 : ℚ)]) < 95/100) ∧
    (createMemory distSq [c6ExistingMemory] c6NewMemory "messages").head?.map
        MemoryRow.uniqueFlag = some false := by
  constructor
  · have hd : distSq [(0 : ℚ)] [(100 : ℚ)] = 10000 := by
      norm_num [distSq]
    rw [hd]
    norm_num
  · decide

/-- Claim C6 (amended): when a memory with an embedding is written, its
`isUnique` flag is true iff the store holds no memory at all with a non-null
embedding in the same table with the same agent and room — the 0.95 similarity
bound is passed to the search but never applied, so dissimilar memories also
suppress uniqueness. (The written row is the head of the resulting table.)
This holds for every distance function, which is itself evidence that neither
the distances nor the threshold influence the flag. -/
theorem c6_isUnique_amended (dist : List ℚ → List ℚ → ℚ) (t : List MemoryRow)
    (m : MemoryInput) (tableName : String) (e : List ℚ) (he : m.embedding = some e) :
    (createMemory dist t m tableName).head?.map MemoryRow.uniqueFlag
      = some (t.filter (fun r =>
          !(r.embedding == none) && r.mtype == tableName && r.agentId == m.agentId
            && r.roomId == m.roomId)).isEmpty := by
  unfold createMemory searchMemoriesByEmbedding
  rw [he]
  simp only [List.head?_cons, Option.map_some']
  congr 1
  rw [if_neg (by decide : ¬(1 = 0))]
  rw [List.length_take, List.length_insertionSort]
  have hfil : t.filter (fun r =>
      !(r.embedding == none) && r.mtype == tableName && r.agentId == m.agentId
        && (!false || r.uniqueFlag)
        && (match some m.roomId with | some rid => r.roomId == rid | none => true))
      = t.filter (fun r =>
          !(r.embedding == none) && r.mtype == tableName && r.agentId == m.agentId
            && r.roomId == m.roomId) := by
    apply List.filter_congr
    intro r _
    simp
  rw [hfil]
  cases h : t.filter (fun r =>
      !(r.embedding == none) && r.mtype == tableName && r.agentId == m.agentId
        && r.roomId == m.roomId) with
  | nil => simp
  | cons x l => simp [Nat.min_def]

/-- Witness for the amended C6 at the concrete dissimilar-memory store. -/
theorem c6_isUnique_amended_witness :
    (c6NewMemory.embedding = some [(100 : ℚ)]) ∧
    (createMemory distSq [c6ExistingMemory] c6NewMemory "messages").head?.map
        MemoryRow.uniqueFlag
      = some ([c6ExistingMemory].filter (fun r =>
          !(r.embedding == none) && r.mtype == "messages" && r.agentId == c6NewMemory.agentId
            && r.roomId == c6NewMemory.roomId)).isEmpty :=
  ⟨rfl, c6_isUnique_amended distSq [c6ExistingMemory] c6NewMemory "messages" [100] rfl⟩

/-- Counterexample to Claim C4 as stated: a shared-pool row (`agentId` NULL,
`isShared = 1`) whose vector similarity is `1/101` (far below both the 0.85
threshold and the 0.3 floor) and whose keyword score is exactly 1.0 is
nevertheless returned by the hybrid search — SQLite parses the final WHERE
clause with `AND` binding tighter than `OR`, so the score condition applies
only to rows matched through `k.agentId = ?`, not to shared rows. -/
theorem c4_counterexample :
    c4SharedRow ∈ (searchKnowledge distSq true [(10 : ℚ)] "agent" (some "needle")
        (85/100) 10 [] [c4SharedRow]).fst.map Prod.fst ∧
    vectorScore distSq [(10 : ℚ)] c4SharedRow = some (1 / 101) ∧
    keywordScore (some "needle") c4SharedRow = 1 ∧
    ¬(optGeB (vectorScore distSq [(10 : ℚ)] c4SharedRow) (85/100) = true ∨
      ((1 : ℚ) < keywordScore (some "needle") c4SharedRow ∧
        optGeB (vectorScore distSq [(10 : ℚ)] c4SharedRow) (3/10) = true)) := by
  have hv : vectorScore distSq [(10 : ℚ)] c4SharedRow = some (1 / 101) := by
    unfold vectorScore c4SharedRow
    norm_num [distSq]
  have hsl : sqlLike ("%" ++ asciiLower ((some "needle").getD "") ++ "%")
      (asciiLower c4SharedRow.content.text) = false := by decide
  have hk : keywordScore (some "needle") c4SharedRow = 1 := by
    unfold keywordScore
    rw [hsl]
    norm_num [c4SharedRow]
  refine ⟨by decide, hv, hk, ?_⟩
  rw [hv, hk]
  intro h
  rcases h with h | ⟨h1, _⟩
  · simp only [optGeB, decide_eq_true_eq] at h
    norm_num at h
  · exact absurd h1 (by norm_num)

/-- Claim C4 (amended): every candidate returned by the hybrid search either is
a shared-pool row (NULL owner and `isShared`, which the statement's operator
precedence exempts from any score condition) or belongs to the searched agent
and satisfies vector similarity ≥ the match threshold or keyword score > 1.0
with vector similarity ≥ 0.3; candidates are ordered by
`vector_score × keyword_score` descending (NULL scores last); and the
knowledge manager requests `2 × limit` candidates from the store, a missing
or zero limit falling back to the default 8 (JS `||` truthiness). -/
theorem c4_hybrid_search_amended (dist : List ℚ → List ℚ → ℚ) (qe : List ℚ) (a : String)
    (st : Option String) (thr : ℚ) (cnt : Nat) (t : List KnowledgeRow) :
    (∀ r ∈ searchKnowledgeRows dist qe a st thr cnt t,
        (r.agentId = none ∧ r.isShared = true) ∨
        (r.agentId = some a ∧ (optGeB (vectorScore dist qe r) thr = true ∨
          ((1 : ℚ) < keywordScore st r ∧ optGeB (vectorScore dist qe r) (3/10) = true)))) ∧
    List.Sorted (keyGe (combinedScore dist qe st)) (searchKnowledgeRows dist qe a st thr cnt t) ∧
    (∀ (ag : String) (emb : List ℚ) (pq : String) (l : Option Nat),
        (ragSearchCall ag emb pq l).matchCount = 2 * jsOrNat l defaultRAGMatchCount) := by
  refine ⟨?_, ?_, ?_⟩
  · intro r hr
    unfold searchKnowledgeRows at hr
    have hr2 := List.mem_of_mem_take hr
    rw [List.mem_insertionSort] at hr2
    have hp := (List.mem_filter.mp hr2).2
    simp only [Bool.and_eq_true] at hp
    have hfp := hp.2
    unfold finalPred at hfp
    simp only [Bool.or_eq_true, Bool.and_eq_true, beq_iff_eq, decide_eq_true_eq] at hfp
    exact hfp
  · unfold searchKnowledgeRows
    exact List.Pairwise.sublist (List.take_sublist _ _) (List.sorted_insertionSort _ _)
  · intro ag emb pq l
    unfold ragSearchCall
    simp [Nat.mul_comm]

theorem find?_filter_of_imp {α : Type} (p keep : α → Bool) (l : List α)
    (h : ∀ x, p x = true → keep x = true) :
    (l.filter keep).find? p = l.find? p := by
  induction l with
  | nil => rfl
  | cons a as ih =>
    by_cases hk : keep a = true
    · rw [List.filter_cons_of_pos hk]
      by_cases hp : p a = true
      · rw [List.find?_cons_of_pos _ hp, List.find?_cons_of_pos _ hp]
      · rw [List.find?_cons_of_neg _ (by simpa using hp),
          List.find?_cons_of_neg _ (by simpa using hp), ih]
    · have hp : p a = false := by
        cases hpa : p a with
        | false => rfl
        | true => exact absurd (h a hpa) hk
      rw [List.filter_cons_of_neg (by simpa using hk), ih,
        List.find?_cons_of_neg _ (by simp [hp])]

/-- Claim C8: when the engine lacks the vector-similarity function, the store's
knowledge search runs the fallback statement instead of raising: on a cache
miss it returns exactly the fallback row set — every row matching the
owner/shared filter and the optional text filter is returned (here under the
hypothesis that those rows fit in `match_count`), ordered by the coarse type
priority (main items first) and recency — rather than an empty-by-exception
result. -/
theorem c8_fallback_search (dist : List ℚ → List ℚ → ℚ) (qe : List ℚ) (thr : ℚ)
    (a : String) (st : Option String) (cnt : Nat) (c : List CacheRow) (t : List KnowledgeRow)
    (hmiss : getCache c (cacheKey a st) a = none)
    (hcnt : (t.filter (fallbackPred a st)).length ≤ cnt) :
    (searchKnowledge dist false qe a st thr cnt c t).fst
        = (searchKnowledgeFallback a st cnt t).map (fun r => (r, (none : Option ℚ))) ∧
    (∀ r ∈ t, fallbackPred a st r = true →
        (r, (none : Option ℚ)) ∈ (searchKnowledge dist false qe a st thr cnt c t).fst) ∧
    List.Sorted (pairGe fallbackKey)
        ((searchKnowledge dist false qe a st thr cnt c t).fst.map Prod.fst) ∧
    (∀ pr ∈ (searchKnowledge dist false qe a st thr cnt c t).fst,
        pr.1 ∈ t ∧ fallbackPred a st pr.1 = true) := by
  have hfst : (searchKnowledge dist false qe a st thr cnt c t).fst
      = (searchKnowledgeFallback a st cnt t).map (fun r => (r, (none : Option ℚ))) := by
    unfold searchKnowledge
    simp [hmiss]
  have htake : (List.insertionSort (pairGe fallbackKey) (t.filter (fallbackPred a st))).take cnt
      = List.insertionSort (pairGe fallbackKey) (t.filter (fallbackPred a st)) := by
    apply List.take_of_length_le
    rw [List.length_insertionSort]
    exact hcnt
  refine ⟨hfst, ?_, ?_, ?_⟩
  · intro r hr hp
    rw [hfst]
    apply List.mem_map_of_mem
    unfold searchKnowledgeFallback
    rw [htake, List.mem_insertionSort]
    exact List.mem_filter.mpr ⟨hr, hp⟩
  · rw [hfst, List.map_map]
    have hcomp : (Prod.fst ∘ fun r : KnowledgeRow => (r, (none : Option ℚ)))
        = fun r : KnowledgeRow => r := rfl
    rw [hcomp, List.map_id']
    unfold searchKnowledgeFallback
    exact List.Pairwise.sublist (List.take_sublist _ _) (List.sorted_insertionSort _ _)
  · intro pr hpr
    rw [hfst] at hpr
    rcases List.mem_map.mp hpr with ⟨r, hrmem, heq⟩
    unfold searchKnowledgeFallback at hrmem
    have hr2 := List.mem_of_mem_take hrmem
    rw [List.mem_insertionSort] at hr2
    have hf := List.mem_filter.mp hr2
    rw [← heq]
    exact ⟨hf.1, hf.2⟩

/-- Claim C9: knowledge-search caching is write-through and keyed by the owner
and the search text (the manager passes the preprocessed — normalized — query
as the search text). After a search on a cache miss, the result sits in the
cache under that key; a second call with the same owner and search text — even
against a different table, with different parameters and a different engine
state — returns the cached result without touching the table; and a different
owner never hits the entry (the key string embeds the owner and the cache row
is additionally keyed by `agentId`). -/
theorem c9_cache_write_through
    (dist dist2 : List ℚ → List ℚ → ℚ) (vss vss2 : Bool) (qe qe2 : List ℚ)
    (a1 a2 q : String) (thr thr2 : ℚ) (cnt cnt2 : Nat)
    (c0 : List CacheRow) (t0 t2 : List KnowledgeRow)
    (hmiss : getCache c0 (cacheKey a1 (some q)) a1 = none) (hne : a1 ≠ a2) :
    getCache (searchKnowledge dist vss qe a1 (some q) thr cnt c0 t0).snd
        (cacheKey a1 (some q)) a1
      = some (searchKnowledge dist vss qe a1 (some q) thr cnt c0 t0).fst ∧
    searchKnowledge dist2 vss2 qe2 a1 (some q) thr2 cnt2
        (searchKnowledge dist vss qe a1 (some q) thr cnt c0 t0).snd t2
      = ((searchKnowledge dist vss qe a1 (some q) thr cnt c0 t0).fst,
         (searchKnowledge dist vss qe a1 (some q) thr cnt c0 t0).snd) ∧
    getCache (searchKnowledge dist vss qe a1 (some q) thr cnt c0 t0).snd
        (cacheKey a2 (some q)) a2
      = getCache c0 (cacheKey a2 (some q)) a2 := by
  have hsnd : (searchKnowledge dist vss qe a1 (some q) thr cnt c0 t0).snd
      = setCache c0 (cacheKey a1 (some q)) a1
          (searchKnowledge dist vss qe a1 (some q) thr cnt c0 t0).fst := by
    unfold searchKnowledge
    simp [hmiss]
  have hget1 : ∀ (v : List ScoredK) (cc : List CacheRow),
      getCache (setCache cc (cacheKey a1 (some q)) a1 v) (cacheKey a1 (some q)) a1
        = some v := by
    intro v cc
    unfold getCache setCache
    rw [List.find?_cons_of_pos _ (by simp)]
    rfl
  have hhit : getCache (searchKnowledge dist vss qe a1 (some q) thr cnt c0 t0).snd
      (cacheKey a1 (some q)) a1
      = some (searchKnowledge dist vss qe a1 (some q) thr cnt c0 t0).fst := by
    rw [hsnd]
    exact hget1 _ _
  have hcached : ∀ (d : List ℚ → List ℚ → ℚ) (v : Bool) (e : List ℚ) (th : ℚ) (cn : Nat)
      (cc : List CacheRow) (tt : List KnowledgeRow) (vres : List ScoredK),
      getCache cc (cacheKey a1 (some q)) a1 = some vres →
      searchKnowledge d v e a1 (some q) th cn cc tt = (vres, cc) := by
    intro d v e th cn cc tt vres hhit2
    unfold searchKnowledge
    simp [hhit2]
  refine ⟨hhit, ?_, ?_⟩
  · exact hcached dist2 vss2 qe2 thr2 cnt2 _ t2 _ hhit
  · rw [hsnd]
    unfold getCache setCache
    rw [List.find?_cons_of_neg _ (by
        simp only [Bool.and_eq_true, beq_iff_eq, not_and]
        intro _ h2
        exact hne h2),
      find?_filter_of_imp _ _ _ ?_]
    intro x hx
    simp only [Bool.and_eq_true, beq_iff_eq] at hx
    simp [hx.2]
    exact Or.inr (fun h => hne h.symm)

/-- Witness for C8: a one-row table searched without the vector function. -/
theorem c8_fallback_search_witness :
    (getCache [] (cacheKey "agent" none) "agent" = none) ∧
    (([c4SharedRow].filter (fallbackPred "agent" none)).length ≤ 5) ∧
    ((searchKnowledge distSq false [(0 : ℚ)] "agent" none (85/100) 5 [] [c4SharedRow]).fst
        = (searchKnowledgeFallback "agent" none 5 [c4SharedRow]).map
            (fun r => (r, (none : Option ℚ))) ∧
     (∀ r ∈ [c4SharedRow], fallbackPred "agent" none r = true →
        (r, (none : Option ℚ)) ∈ (searchKnowledge distSq false [(0 : ℚ)] "agent" none
            (85/100) 5 [] [c4SharedRow]).fst) ∧
     List.Sorted (pairGe fallbackKey)
        ((searchKnowledge distSq false [(0 : ℚ)] "agent" none (85/100) 5 []
            [c4SharedRow]).fst.map Prod.fst) ∧
     (∀ pr ∈ (searchKnowledge distSq false [(0 : ℚ)] "agent" none (85/100) 5 []
          [c4SharedRow]).fst,
        pr.1 ∈ [c4SharedRow] ∧ fallbackPred "agent" none pr.1 = true)) :=
  ⟨rfl, by decide,
    c8_fallback_search distSq [0] (85/100) "agent" none 5 [] [c4SharedRow] rfl (by decide)⟩

/-- Witness for C9: a cached search for owner `u1` is hit by a second `u1`
call against a different table and missed by owner `u2`. -/
theorem c9_cache_write_through_witness :
    (getCache [] (cacheKey "u1" (some "hi")) "u1" = none) ∧ ("u1" ≠ "u2") ∧
    (getCache (searchKnowledge distSq true [(0 : ℚ)] "u1" (some "hi") (85/100) 4 []
          [c4SharedRow]).snd (cacheKey "u1" (some "hi")) "u1"
        = some (searchKnowledge distSq true [(0 : ℚ)] "u1" (some "hi") (85/100) 4 []
            [c4SharedRow]).fst ∧
     searchKnowledge distSq false [(1 : ℚ)] "u1" (some "hi") (1/2) 9
         (searchKnowledge distSq true [(0 : ℚ)] "u1" (some "hi") (85/100) 4 []
           [c4SharedRow]).snd []
       = ((searchKnowledge distSq true [(0 : ℚ)] "u1" (some "hi") (85/100) 4 []
             [c4SharedRow]).fst,
          (searchKnowledge distSq true [(0 : ℚ)] "u1" (some "hi") (85/100) 4 []
             [c4SharedRow]).snd) ∧
     getCache (searchKnowledge distSq true [(0 : ℚ)] "u1" (some "hi") (85/100) 4 []
          [c4SharedRow]).snd (cacheKey "u2" (some "hi")) "u2"
       = getCache [] (cacheKey "u2" (some "hi")) "u2") :=
  ⟨rfl, by decide,
    c9_cache_write_through distSq distSq true false [0] [1] "u1" "u2" "hi" (85/100) (1/2)
      4 9 [] [c4SharedRow] [] rfl (by decide)⟩

end LSA
